import Mathlib

/-!
Verification of the openglobus quad-tree LOD terrain engine core.

This file shallowly embeds, in Lean 4, the parts of the openglobus source
that the specification's claims are about:

* `Extent`/`LonLat` and `EarthEntityCollectionNodeLonLat.createChildNodes`
  (src/quadTree/earth/EarthEntityCollectionNodeLonLat.ts);
* `Camera.projectedSize` and `Camera._updateViewportParameters`
  (src/camera/Camera.ts);
* `Planet._collectRenderedNodesMaxZoom`, `Planet._globalPreDraw`,
  `Planet.memClear`, and the pixel→terrain picking functions
  (src/scene/Planet.ts);
* `RgbTerrain.rgb2Height`, `RgbTerrain.checkNoDataValue`,
  `extractElevationSimple`, `getTileOffset`, `getChildTileIndex`,
  `getParentHeight` (src/terrain/RgbTerrain.ts);
* the transition-opacity (fading) state machine of quad-tree nodes.

JavaScript `number`s are modelled as `ℚ` where the code performs only
field operations and comparisons (tile math, extents, opacity, thresholds)
and as `ℝ` where transcendental functions occur (`Math.atan`, `Math.PI`).
The 32-bit semantics of the JavaScript `<<` operator is modelled exactly
(`jsShl32` below).  `undefined`-or-value results are modelled as `Option`.
-/

namespace OG

/-! ## LonLat / Extent (the lon-lat primitives used by the quad tree)

`LonLat` is `{lon, lat}` in degrees (the `height` field plays no role in
extent subdivision).  `Extent.getWidth`/`getHeight` are modelled from the
spec: width/height are derived from the corner difference. -/

structure LonLat where
  lon : ℚ
  lat : ℚ
deriving DecidableEq

structure Extent where
  southWest : LonLat
  northEast : LonLat
deriving DecidableEq

def Extent.getWidth (e : Extent) : ℚ := e.northEast.lon - e.southWest.lon

def Extent.getHeight (e : Extent) : ℚ := e.northEast.lat - e.southWest.lat

/-- A point lies inside an extent (boundary included). -/
def Extent.mem (e : Extent) (p : LonLat) : Prop :=
  e.southWest.lon ≤ p.lon ∧ p.lon ≤ e.northEast.lon ∧
  e.southWest.lat ≤ p.lat ∧ p.lat ≤ e.northEast.lat

instance (e : Extent) (p : LonLat) : Decidable (e.mem p) := by
  unfold Extent.mem; infer_instance

/-- A point lies strictly inside an extent (boundary excluded). -/
def Extent.interior (e : Extent) (p : LonLat) : Prop :=
  e.southWest.lon < p.lon ∧ p.lon < e.northEast.lon ∧
  e.southWest.lat < p.lat ∧ p.lat < e.northEast.lat

instance (e : Extent) (p : LonLat) : Decidable (e.interior p) := by
  unfold Extent.interior; infer_instance

/-! ## EarthEntityCollectionNodeLonLat.createChildNodes

Embedding of the four child extents built in `createChildNodes`:

    const size_x = ext.getWidth() * 0.5;
    const size_y = ext.getHeight() * 0.5;
    const ne = ext.northEast;  const sw = ext.southWest;
    const c = new LonLat(sw.lon + size_x, sw.lat + size_y);
    nd[NW] = ... new Extent(new LonLat(sw.lon, sw.lat + size_y), new LonLat(sw.lon + size_x, ne.lat)) ...
    nd[NE] = ... new Extent(c, new LonLat(ne.lon, ne.lat)) ...
    nd[SW] = ... new Extent(new LonLat(sw.lon, sw.lat), c) ...
    nd[SE] = ... new Extent(new LonLat(sw.lon + size_x, sw.lat), new LonLat(ne.lon, sw.lat + size_y)) ...
-/

structure ChildExtents where
  nw : Extent
  ne : Extent
  sw : Extent
  se : Extent

def createChildNodes (ext : Extent) : ChildExtents :=
  let size_x := ext.getWidth * (1/2)
  let size_y := ext.getHeight * (1/2)
  let ne := ext.northEast
  let sw := ext.southWest
  let c : LonLat := ⟨sw.lon + size_x, sw.lat + size_y⟩
  { nw := ⟨⟨sw.lon, sw.lat + size_y⟩, ⟨sw.lon + size_x, ne.lat⟩⟩
    ne := ⟨c, ⟨ne.lon, ne.lat⟩⟩
    sw := ⟨⟨sw.lon, sw.lat⟩, c⟩
    se := ⟨⟨sw.lon + size_x, sw.lat⟩, ⟨ne.lon, sw.lat + size_y⟩⟩ }

/-! ## RgbTerrain.rgb2Height -/

/-- `rgb2Height(r, g, b)` from RgbTerrain.ts:

    if (r === 255) { return this._minHeight; }
    return this._minHeight + this._resolution * (r * 256 * 256 + g * 256 + b);
-/
def rgb2Height (minHeight resolution : ℚ) (r g b : ℚ) : ℚ :=
  if r = 255 then minHeight
  else minHeight + resolution * (r * 256 * 256 + g * 256 + b)

/-! ## getTileOffset / getChildTileIndex (RgbTerrain.ts module functions)

The source computes `let dz2 = 2 << (currentTileZoom - parentTileZoom - 1)`.
JavaScript `<<` coerces both operands to 32-bit integers: the shift count is
taken modulo 32 and the product wraps into signed 32-bit range.  `jsShl32`
models this exactly. -/

/-- Wrap an integer into signed 32-bit two's-complement range. -/
def toInt32 (n : ℤ) : ℤ :=
  let m := n % 4294967296
  if m ≥ 2147483648 then m - 4294967296 else m

/-- JavaScript `a << k` (for `k ≥ 0`): shift count masked to 5 bits, result
wrapped to signed 32-bit. -/
def jsShl32 (a k : ℤ) : ℤ :=
  toInt32 (toInt32 a * 2 ^ ((k % 32).toNat))

/-- `getTileOffset` from RgbTerrain.ts:

    let dz2 = 2 << (currentTileZoom - parentTileZoom - 1);
    return [currentTileX - dz2 * parentTileX, currentTileY - dz2 * parentTileY, 1.0 / dz2];
-/
def getTileOffset (currentTileX currentTileY currentTileZoom parentTileX parentTileY parentTileZoom : ℤ) :
    ℤ × ℤ × ℚ :=
  let dz2 := jsShl32 2 (currentTileZoom - parentTileZoom - 1)
  (currentTileX - dz2 * parentTileX, currentTileY - dz2 * parentTileY, 1 / (dz2 : ℚ))

/-- `getChildTileIndex` from RgbTerrain.ts. -/
def getChildTileIndex (currentParentTileX currentParentTileY currentParentTileZoom childOffsetX childOffsetY : ℤ) :
    ℤ × ℤ × ℤ :=
  (currentParentTileX * 2 + childOffsetX, currentParentTileY * 2 + childOffsetY, currentParentTileZoom + 1)

/-! ## Camera: projected-size LOD metric

`Camera.projectedSize` and `Camera._updateViewportParameters` from
Camera.ts:

    public projectedSize(p: Vec3, r: number): number {
        return Math.atan(r / this.eye.distance(p)) * this._projSizeConst;
    }

    protected _updateViewportParameters() {
        ...
        this._projSizeConst = Math.min(this._width < 512 ? 512 : this._width,
            this._height < 512 ? 512 : this._height) / (this._viewAngle * RADIANS);
    }
-/

/-- 3-component cartesian vector over `ℝ`.  Modelled from the spec:
`math/Vec3.ts` is not among the sources; the spec's camera metric only uses
the Euclidean distance between two points. -/
structure Vec3 where
  x : ℝ
  y : ℝ
  z : ℝ

/-- Euclidean distance `a.distance(b)`. -/
noncomputable def Vec3.distance (a b : Vec3) : ℝ :=
  Real.sqrt ((b.x - a.x) ^ 2 + (b.y - a.y) ^ 2 + (b.z - a.z) ^ 2)

/-- Modelled from the spec: the `RADIANS` constant of the `math` module
(not among the sources) is degrees-to-radians, `π / 180`. -/
noncomputable def RADIANS : ℝ := Real.pi / 180

/-- `_updateViewportParameters`: the value assigned to `_projSizeConst`
as a function of the viewport width/height and the view angle in degrees. -/
noncomputable def updateProjSizeConst (width height viewAngle : ℝ) : ℝ :=
  min (if width < 512 then 512 else width) (if height < 512 then 512 else height)
    / (viewAngle * RADIANS)

/-- `Camera.projectedSize(p, r)` for a camera with eye `eye` and
`_projSizeConst = projSizeConst`. -/
noncomputable def projectedSize (eye : Vec3) (projSizeConst : ℝ) (p : Vec3) (r : ℝ) : ℝ :=
  Real.arctan (r / eye.distance p) * projSizeConst

/-! ## Planet._collectRenderedNodesMaxZoom (the equal-zoom correction pass)

    protected _collectRenderedNodesMaxZoom(cam: PlanetCamera) {
        if (cam.slope > this.minEqualZoomCameraSlope && cam._lonLat.height < this.maxEqualZoomAltitude
            && cam._lonLat.height > this.minEqualZoomAltitude) {
            ...
            for (let i = 0, len = temp.length; i < len; i++) {
                let ri = temp[i];
                let ht = ri.segment.centerNormal.dot(cam.getBackward());
                if (ri.segment.tileZoom === this.maxCurrZoom || ht < HORIZON_TANGENT) {
                    this._renderedNodes.push(ri);
                    ...
                } else {
                    temp2.push(ri);
                }
            }
            for (...) { temp2[i].renderTree(cam, this.maxCurrZoom, ...); }
        }
    }

The embedding returns the pair (kept `_renderedNodes`, `temp2`): the nodes
of `temp2` are afterwards re-subdivided by `renderTree` down to
`maxCurrZoom` (the per-frustum bookkeeping of kept nodes is not modelled:
it does not change which nodes are kept). -/

/-- 3-component vector over `ℚ` (used where the source only multiplies,
adds and compares components). -/
structure Vec3q where
  x : ℚ
  y : ℚ
  z : ℚ
deriving DecidableEq

def Vec3q.dot (a b : Vec3q) : ℚ := a.x * b.x + a.y * b.y + a.z * b.z

/-- `const HORIZON_TANGENT = 0.81` (Planet.ts). -/
def HORIZON_TANGENT : ℚ := 81 / 100

/-- `const MAX_NODES = 200` (Planet.ts). -/
def MAX_NODES : ℕ := 200

/-- The per-node data read by the equal-zoom pass: the segment's tile zoom
and centre normal. -/
structure RNode where
  tileZoom : ℤ
  centerNormal : Vec3q
deriving DecidableEq

/-- The camera data read by the equal-zoom pass. -/
structure EqCam where
  slope : ℚ
  height : ℚ
  backward : Vec3q

/-- The three Planet options gating the pass, with their documented
defaults (`Planet` constructor). -/
structure EqCfg where
  minEqualZoomCameraSlope : ℚ
  maxEqualZoomAltitude : ℚ
  minEqualZoomAltitude : ℚ

/-- Defaults: `minEqualZoomCameraSlope = 0.8`,
`maxEqualZoomAltitude = 15000000`, `minEqualZoomAltitude = 10000`. -/
def defaultEqCfg : EqCfg :=
  { minEqualZoomCameraSlope := 8/10
    maxEqualZoomAltitude := 15000000
    minEqualZoomAltitude := 10000 }

/-- Whether the camera is in the equal-zoom band (the `if` condition of
`_collectRenderedNodesMaxZoom`). -/
def inEqualZoomBand (cfg : EqCfg) (cam : EqCam) : Prop :=
  cam.slope > cfg.minEqualZoomCameraSlope ∧
  cam.height < cfg.maxEqualZoomAltitude ∧
  cam.height > cfg.minEqualZoomAltitude

instance (cfg : EqCfg) (cam : EqCam) : Decidable (inEqualZoomBand cfg cam) := by
  unfold inEqualZoomBand; infer_instance

/-- `_collectRenderedNodesMaxZoom`: returns (kept rendered nodes, nodes
handed to `renderTree` for re-subdivision down to `maxCurrZoom`).  Outside
the band the rendered list is untouched and nothing is re-subdivided. -/
def collectRenderedNodesMaxZoom (cfg : EqCfg) (cam : EqCam) (maxCurrZoom : ℤ)
    (renderedNodes : List RNode) : List RNode × List RNode :=
  if inEqualZoomBand cfg cam then
    renderedNodes.partition
      (fun ri => decide (ri.tileZoom = maxCurrZoom ∨
        ri.centerNormal.dot cam.backward < HORIZON_TANGENT))
  else
    (renderedNodes, [])

/-! ## Planet._globalPreDraw / Planet.memClear (memory-clear policy)

    this._distBeforeMemClear += this._prevCamEye.distance(cam.eye);
    this._prevCamEye.copy(cam.eye);
    ...
    if (this._createdNodesCount > MAX_NODES && this._distBeforeMemClear > this._minDistanceBeforeMemClear) {
        this.terrain!.clearCache();
        this.memClear();
    }

`memClear()` sets `_distBeforeMemClear = 0` and `_createdNodesCount = 0`
(besides aborting loads and clearing the tree, which hold no numeric
state here).  `travel` stands for `this._prevCamEye.distance(cam.eye)`,
the camera travel of this frame. -/

structure MemState where
  createdNodesCount : ℕ
  distBeforeMemClear : ℚ
  minDistanceBeforeMemClear : ℚ
deriving DecidableEq

def memClear (s : MemState) : MemState :=
  { s with distBeforeMemClear := 0, createdNodesCount := 0 }

/-- `_globalPreDraw`, returning the new state and whether the full clear
(`terrain.clearCache(); this.memClear()`) was triggered. -/
def globalPreDraw (s : MemState) (travel : ℚ) : MemState × Bool :=
  let s1 := { s with distBeforeMemClear := s.distBeforeMemClear + travel }
  if s1.createdNodesCount > MAX_NODES ∧
      s1.distBeforeMemClear > s1.minDistanceBeforeMemClear then
    (memClear s1, true)
  else
    (s1, false)

/-! ## Transition-opacity (fading) state machine

Modelled from the spec: the per-frame opacity update of a quad-tree node
(`Node._refreshTransitionOpacity`, quadTree/Node.ts) is not among the
sources — only its caller `Planet._collectRenderNodes` is.  Spec §4.4:
a segment is `OPAQUE_IN` (opacity rising 0→1 by a fixed per-frame rate,
clamped at 1, then steady/opaque), `STEADY` (opacity 1), `FADING_OUT`
(opacity falling 1→0 by the rate), or `GONE` (removed from the fading
collection once opacity reaches 0). -/

inductive FadePhase where
  | fadingIn (o : ℚ)
  | steady
  | fadingOut (o : ℚ)
  | gone
deriving DecidableEq

/-- The `_transitionOpacity` a segment in the given phase renders with. -/
def FadePhase.opacity : FadePhase → ℚ
  | .fadingIn o => o
  | .steady => 1
  | .fadingOut o => o
  | .gone => 0

/-- One frame of the fading state machine at per-frame rate `rate`. -/
def fadeStep (rate : ℚ) : FadePhase → FadePhase
  | .fadingIn o => if 1 ≤ o + rate then .steady else .fadingIn (o + rate)
  | .steady => .steady
  | .fadingOut o => if o - rate ≤ 0 then .gone else .fadingOut (o - rate)
  | .gone => .gone

def FadePhase.isFadingIn : FadePhase → Prop
  | .fadingIn _ => True
  | _ => False

def FadePhase.isFadingOut : FadePhase → Prop
  | .fadingOut _ => True
  | _ => False

instance (s : FadePhase) : Decidable s.isFadingIn := by
  cases s <;> simp [FadePhase.isFadingIn] <;> infer_instance

instance (s : FadePhase) : Decidable s.isFadingOut := by
  cases s <;> simp [FadePhase.isFadingOut] <;> infer_instance

/-- Well-formed phases: mid-fade opacities lie in `[0, 1]`. -/
def FadePhase.WF : FadePhase → Prop
  | .fadingIn o => 0 ≤ o ∧ o ≤ 1
  | .steady => True
  | .fadingOut o => 0 ≤ o ∧ o ≤ 1
  | .gone => True

instance (s : FadePhase) : Decidable s.WF := by
  cases s <;> simp [FadePhase.WF] <;> infer_instance

/-! ## Pixel → terrain/ellipsoid picking (Planet.ts)

    public getCartesianFromPixelEllipsoid(px): Vec3 | undefined {
        return this.ellipsoid.hitRay(cam.eye, cam.unproject(px.x, px.y));
    }
    public getDistanceFromPixelEllipsoid(px): number | undefined {
        let coords = this.getCartesianFromPixelEllipsoid(px);
        if (coords) { return coords.distance(cam.eye); }
    }
    public getDistanceFromPixel(px): number {
        return this.renderer!.getDistanceFromPixel(px) || this.getDistanceFromPixelEllipsoid(px) || 0;
    }
    public getCartesianFromPixelTerrain(px): Vec3 | undefined {
        let distance = this.getDistanceFromPixel(px);
        if (distance) {
            let direction = px.direction || cam.unproject(px.x, px.y);
            return direction.scaleTo(distance).addA(cam.eye);
        }
    }
    public getLonLatFromPixelTerrain(px): LonLat | undefined {
        let coords = this.getCartesianFromPixelTerrain(px);
        if (coords) { return this.ellipsoid.cartesianToLonLat(coords); }
    }

`Ellipsoid.hitRay` and `Renderer.getDistanceFromPixel` are not among the
sources.  Modelled from the spec: `hitRay(eye, dir)` returns the first
intersection point `eye + t·dir` of the (unit) ray with the ellipsoid, or
`undefined` when the ray misses the globe (`ellipsoidHitDist = none`); for
a unit direction `coords.distance(eye)` is that parameter `t`.
`Renderer.getDistanceFromPixel` (depth-buffer read of the rendered
terrain) is an abstract `Option ℚ`, `none` when nothing was rendered under
the pixel.  JavaScript falsiness (`undefined` and `0`) of the `||` chain
and of `if (distance)` is modelled by `jsTruthy`. -/

def Vec3q.scaleTo (v : Vec3q) (scale : ℚ) : Vec3q :=
  ⟨v.x * scale, v.y * scale, v.z * scale⟩

def Vec3q.addA (a b : Vec3q) : Vec3q := ⟨a.x + b.x, a.y + b.y, a.z + b.z⟩

/-- The data one picking query reads: camera eye, unprojected unit ray
direction, the renderer's depth-buffer distance (if any), and the modelled
ellipsoid hit parameter (if the ray hits the globe). -/
structure PickCtx where
  eye : Vec3q
  dir : Vec3q
  rendererDist : Option ℚ
  ellipsoidHitDist : Option ℚ

/-- Modelled from the spec: `Ellipsoid.hitRay` returns the hit point or
`undefined`. -/
def hitRay (ctx : PickCtx) : Option Vec3q :=
  ctx.ellipsoidHitDist.map (fun t => ctx.eye.addA (ctx.dir.scaleTo t))

def getCartesianFromPixelEllipsoid (ctx : PickCtx) : Option Vec3q :=
  hitRay ctx

/-- `if (coords) return coords.distance(eye)`: for the modelled unit ray the
distance of `eye + t·dir` from `eye` is `t`. -/
def getDistanceFromPixelEllipsoid (ctx : PickCtx) : Option ℚ :=
  match getCartesianFromPixelEllipsoid ctx with
  | some _ => ctx.ellipsoidHitDist
  | none => none

/-- JavaScript truthiness of a `number | undefined`: `undefined`, `0` (and
`NaN`, not modelled) are falsy. -/
def jsTruthy (o : Option ℚ) : Bool :=
  match o with
  | none => false
  | some x => decide (x ≠ 0)

/-- JavaScript `a || b` on `number | undefined` values. -/
def jsOr (a b : Option ℚ) : Option ℚ :=
  if jsTruthy a then a else b

/-- `getDistanceFromPixel` (always a number: the chain ends in `|| 0`). -/
def getDistanceFromPixel (ctx : PickCtx) : ℚ :=
  match jsOr (jsOr ctx.rendererDist (getDistanceFromPixelEllipsoid ctx)) (some 0) with
  | some x => x
  | none => 0

def getCartesianFromPixelTerrain (ctx : PickCtx) : Option Vec3q :=
  let distance := getDistanceFromPixel ctx
  if distance ≠ 0 then some ((ctx.dir.scaleTo distance).addA ctx.eye) else none

/-- `cartesianToLonLat` is out of the claim's scope: it is abstracted by
`toLonLat`. -/
def getLonLatFromPixelTerrain (ctx : PickCtx) (toLonLat : Vec3q → LonLat) : Option LonLat :=
  (getCartesianFromPixelTerrain ctx).map toLonLat

/-! ## Elevation extraction (RgbTerrain.ts)

`RgbTerrain.checkNoDataValue`:

    if (value > 50000) { return true; }
    return binarySearchFast(noDataValues, value) !== -1;

`binarySearchFast` lives in utils/shared.ts, which is not among the
sources.  Modelled from the spec: a standard binary search over the
sorted sentinel array returning the found index or `-1` (`bsfGo` carries
fuel for termination; `arr.length + 1` iterations always suffice). -/

def bsfGo (arr : List ℚ) (x : ℚ) : ℕ → ℤ → ℤ → ℤ
  | 0, _, _ => -1
  | fuel + 1, start, en =>
    if start ≤ en then
      let m := (start + en) / 2
      let v := arr.getD m.toNat 0
      if v = x then m
      else if v < x then bsfGo arr x fuel (m + 1) en
      else bsfGo arr x fuel start (m - 1)
    else -1

def binarySearchFast (arr : List ℚ) (x : ℚ) : ℤ :=
  bsfGo arr x (arr.length + 1) 0 ((arr.length : ℤ) - 1)

/-- `RgbTerrain.checkNoDataValue`. -/
def checkNoDataValue (noDataValues : List ℚ) (value : ℚ) : Bool :=
  if value > 50000 then true
  else decide (binarySearchFast noDataValues value ≠ -1)

/-- `getParentHeight` from RgbTerrain.ts:

    let parentGridSize = Math.sqrt(heights.length);
    let pi = Math.floor(offsetY * oneByDz2 * parentGridSize + i * oneByDz2),
        pj = Math.floor(offsetX * oneByDz2 * parentGridSize + j * oneByDz2);
    let h = heights[pi * parentGridSize + pj];
    return skipPositiveHeights ? (h > 0 ? 0 : h) : h;

The parent array is a total function `ℤ → ℚ`; its side length
`parentGridSize` (`Math.sqrt(heights.length)` in the source) is passed
explicitly. -/
def getParentHeight (oneByDz2 : ℚ) (offsetX offsetY : ℚ) (heights : ℤ → ℚ)
    (parentGridSize : ℕ) (i j : ℕ) (skipPositiveHeights : Bool) : ℚ :=
  let pi := ⌊offsetY * oneByDz2 * (parentGridSize : ℚ) + (i : ℚ) * oneByDz2⌋
  let pj := ⌊offsetX * oneByDz2 * (parentGridSize : ℚ) + (j : ℚ) * oneByDz2⌋
  let h := heights (pi * (parentGridSize : ℤ) + pj)
  if skipPositiveHeights then (if h > 0 then 0 else h) else h

/-- `heightFactor * this.rgb2Height(rgbaData[fromInd4], rgbaData[fromInd4+1],
rgbaData[fromInd4+2])`. -/
def pixelHeight (rgbaData : ℕ → ℚ) (minHeight resolution heightFactor : ℚ)
    (fromInd4 : ℕ) : ℚ :=
  heightFactor * rgb2Height minHeight resolution
    (rgbaData fromInd4) (rgbaData (fromInd4 + 1)) (rgbaData (fromInd4 + 2))

/-- The no-data/zero parent fallback applied to one sample:

    let isNoData = RgbTerrain.checkNoDataValue(noDataValues, height);
    if ((isNoData || height === 0) && availableParentData) {
        height = getParentHeight(availableZoomDiff, availableParentOffsetX,
            availableParentOffsetY, availableParentData, i, j, skipPositiveHeights);
    }
-/
def resolveHeight (noDataValues : List ℚ) (availableParentData : Option (ℤ → ℚ))
    (parentGridSize : ℕ) (availableParentOffsetX availableParentOffsetY availableZoomDiff : ℚ)
    (skipPositiveHeights : Bool) (height : ℚ) (i j : ℕ) : ℚ :=
  match availableParentData with
  | some heights =>
    if checkNoDataValue noDataValues height = true ∨ height = 0 then
      getParentHeight availableZoomDiff availableParentOffsetX availableParentOffsetY
        heights parentGridSize i j skipPositiveHeights
    else height
  | none => height

/-- Sequential array writes: `for (k = 0; k < n; k++) a[idx k] = val k`. -/
def fillRange (n : ℕ) (idx : ℕ → ℕ) (val : ℕ → ℚ) (a : ℕ → ℚ) : ℕ → ℚ :=
  (List.range n).foldl (fun acc k => Function.update acc (idx k) (val k)) a

/-- `RgbTerrain.extractElevationSimple` (the `imageSize === plainGridSize`
path): four write passes over a zero-initialised `(imageSize+1)²` output —
the interior loop over all `imageSize²` pixels, the duplicated right
column, the duplicated bottom row, and the bottom-right corner. -/
def extractElevationSimple (rgbaData : ℕ → ℚ) (noDataValues : List ℚ)
    (availableParentData : Option (ℤ → ℚ)) (parentGridSize : ℕ)
    (availableParentOffsetX availableParentOffsetY availableZoomDiff : ℚ)
    (skipPositiveHeights : Bool) (heightFactor : ℚ) (imageSize : ℕ)
    (minHeight resolution : ℚ) : ℕ → ℚ :=
  let res := fun h i j => resolveHeight noDataValues availableParentData parentGridSize
    availableParentOffsetX availableParentOffsetY availableZoomDiff skipPositiveHeights h i j
  let px := pixelHeight rgbaData minHeight resolution heightFactor
  let a0 : ℕ → ℚ := fun _ => 0
  let a1 := fillRange (imageSize * imageSize)
    (fun k => (k / imageSize) * (imageSize + 1) + k % imageSize)
    (fun k => res (px (k * 4)) (k / imageSize) (k % imageSize)) a0
  let a2 := fillRange imageSize
    (fun i => i * (imageSize + 1) + imageSize)
    (fun i => res (px ((i * imageSize + (imageSize - 1)) * 4)) i (imageSize - 1)) a1
  let a3 := fillRange imageSize
    (fun j => imageSize * (imageSize + 1) + j)
    (fun j => res (px (((imageSize - 1) * imageSize + j) * 4)) (imageSize - 1) j) a2
  Function.update a3 ((imageSize + 1) * (imageSize + 1) - 1)
    (res (px ((imageSize * imageSize - 1) * 4)) (imageSize - 1) (imageSize - 1))

end OG

/-! ### Theorems -/

namespace OG

/-- The conjunction asserted by claim C1 about the children of one extent,
evaluated at one probe point `p`: half-size children, union equal to the
parent, pairwise disjoint interiors. -/
def ChildrenPartitionAt (ext : Extent) (p : LonLat) : Prop :=
  (let ch := createChildNodes ext;
    ((ch.nw.getWidth = ext.getWidth / 2 ∧ ch.nw.getHeight = ext.getHeight / 2 ∧
      ch.ne.getWidth = ext.getWidth / 2 ∧ ch.ne.getHeight = ext.getHeight / 2 ∧
      ch.sw.getWidth = ext.getWidth / 2 ∧ ch.sw.getHeight = ext.getHeight / 2 ∧
      ch.se.getWidth = ext.getWidth / 2 ∧ ch.se.getHeight = ext.getHeight / 2) ∧
     (ext.mem p ↔ (ch.nw.mem p ∨ ch.ne.mem p ∨ ch.sw.mem p ∨ ch.se.mem p)) ∧
     (¬(ch.nw.interior p ∧ ch.ne.interior p) ∧ ¬(ch.nw.interior p ∧ ch.sw.interior p) ∧
      ¬(ch.nw.interior p ∧ ch.se.interior p) ∧ ¬(ch.ne.interior p ∧ ch.sw.interior p) ∧
      ¬(ch.ne.interior p ∧ ch.se.interior p) ∧ ¬(ch.sw.interior p ∧ ch.se.interior p))))

instance (ext : Extent) (p : LonLat) : Decidable (ChildrenPartitionAt ext p) := by
  unfold ChildrenPartitionAt; infer_instance

/-- C1: the four child extents built by `createChildNodes` partition the
parent extent: each child spans half the parent's width and half its height,
their union is the parent (every point of the parent lies in a child and
conversely), and distinct children meet only on shared edges (their
interiors are pairwise disjoint). -/
theorem createChildNodes_partitions (ext : Extent)
    (hw : ext.southWest.lon ≤ ext.northEast.lon)
    (hh : ext.southWest.lat ≤ ext.northEast.lat)
    (p : LonLat) :
    ChildrenPartitionAt ext p := by
  obtain ⟨⟨swlon, swlat⟩, ⟨nelon, nelat⟩⟩ := ext
  simp only [ChildrenPartitionAt, createChildNodes, Extent.getWidth, Extent.getHeight,
    Extent.mem, Extent.interior] at *
  refine ⟨by constructor <;> ring_nf <;> norm_num, ?_, ?_⟩
  · constructor
    · rintro ⟨h1, h2, h3, h4⟩
      rcases le_total p.lon (swlon + (nelon - swlon) * (1/2)) with hx | hx <;>
        rcases le_total p.lat (swlat + (nelat - swlat) * (1/2)) with hy | hy
      · exact Or.inr (Or.inr (Or.inl ⟨h1, hx, h3, hy⟩))
      · exact Or.inl ⟨h1, hx, hy, h4⟩
      · exact Or.inr (Or.inr (Or.inr ⟨hx, h2, h3, hy⟩))
      · exact Or.inr (Or.inl ⟨hx, h2, hy, h4⟩)
    · rintro (⟨h1, h2, h3, h4⟩ | ⟨h1, h2, h3, h4⟩ | ⟨h1, h2, h3, h4⟩ | ⟨h1, h2, h3, h4⟩) <;>
        refine ⟨by linarith, by linarith, by linarith, by linarith⟩
  · refine ⟨?_, ?_, ?_, ?_, ?_, ?_⟩ <;>
      rintro ⟨⟨a1, a2, a3, a4⟩, ⟨b1, b2, b3, b4⟩⟩ <;> linarith

/-- Witness for C1 at the whole-globe extent `[-180,-90]..[180,90]` and the
point `(10, 20)`. -/
theorem createChildNodes_partitions_witness :
    ((-180 : ℚ) ≤ 180 ∧ (-90 : ℚ) ≤ 90) ∧
    ChildrenPartitionAt ⟨⟨-180, -90⟩, ⟨180, 90⟩⟩ ⟨10, 20⟩ :=
  ⟨⟨by norm_num, by norm_num⟩,
    createChildNodes_partitions ⟨⟨-180, -90⟩, ⟨180, 90⟩⟩ (by norm_num) (by norm_num) ⟨10, 20⟩⟩

/-- C7: `rgb2Height` decodes the base-256 channel triple affinely, except
that any triple with `r = 255` yields exactly `minHeight`, regardless of
`g` and `b`. -/
theorem rgb2Height_spec (minHeight resolution r g b : ℚ) :
    (r = 255 → rgb2Height minHeight resolution r g b = minHeight) ∧
    (r ≠ 255 → rgb2Height minHeight resolution r g b =
      minHeight + resolution * (r * 256 * 256 + g * 256 + b)) := by
  constructor <;> intro h <;> simp [rgb2Height, h]

/-- Witness for C7: the sentinel row `r = 255` collapses to `minHeight`
independently of `g, b`; an ordinary triple decodes affinely. -/
theorem rgb2Height_spec_witness :
    rgb2Height (-10000) (1/10) 255 17 99 = -10000 ∧
    rgb2Height (-10000) (1/10) 1 2 3 = -10000 + (1/10) * (1 * 256 * 256 + 2 * 256 + 3) :=
  ⟨(rgb2Height_spec (-10000) (1/10) 255 17 99).1 rfl,
   (rgb2Height_spec (-10000) (1/10) 1 2 3).2 (by norm_num)⟩

/-- C2: `projectedSize(p, r) = atan(r / distance(eye, p)) * projSizeConst`,
and after a viewport/view-angle update `projSizeConst` equals
`min(max(width, 512), max(height, 512)) / (viewAngle * π/180)`. -/
theorem projectedSize_formula (eye p : Vec3) (c r width height viewAngle : ℝ) :
    projectedSize eye c p r = Real.arctan (r / eye.distance p) * c ∧
    updateProjSizeConst width height viewAngle =
      min (max width 512) (max height 512) / (viewAngle * (Real.pi / 180)) := by
  refine ⟨rfl, ?_⟩
  unfold updateProjSizeConst RADIANS
  congr 1
  congr 1 <;> rcases lt_or_le width 512 with h | h <;> rcases lt_or_le height 512 with h2 | h2 <;>
    simp [max_eq_left, max_eq_right, le_of_lt, *]

/-- C3: for a fixed camera (`eye`, `projSizeConst = c > 0`), `projectedSize`
is strictly decreasing in the distance of the queried point at fixed radius
`r > 0`, and strictly increasing in the radius at fixed positive distance. -/
theorem projectedSize_strictMono (eye p1 p2 q : Vec3) (c r r1 r2 : ℝ) (hc : 0 < c) :
    (0 < r → 0 < eye.distance p1 → eye.distance p1 < eye.distance p2 →
      projectedSize eye c p2 r < projectedSize eye c p1 r) ∧
    (0 < eye.distance q → r1 < r2 →
      projectedSize eye c q r1 < projectedSize eye c q r2) := by
  constructor
  · intro hr hd1 hlt
    unfold projectedSize
    apply mul_lt_mul_of_pos_right _ hc
    exact Real.arctan_strictMono ((div_lt_div_iff_of_pos_left hr (hd1.trans hlt) hd1).mpr hlt)
  · intro hd hrr
    unfold projectedSize
    apply mul_lt_mul_of_pos_right _ hc
    exact Real.arctan_strictMono ((div_lt_div_iff_of_pos_right hd).mpr hrr)

/-- Witness for C3 with eye at the origin, points at distances 1 and 3 on
the x axis, `c = 1`, radii 1 and 2: the farther point gets the smaller
projected size, the larger radius the larger one. -/
theorem projectedSize_strictMono_witness :
    ((0 : ℝ) < 1) ∧
    0 < Vec3.distance ⟨0, 0, 0⟩ ⟨1, 0, 0⟩ ∧
    Vec3.distance ⟨0, 0, 0⟩ ⟨1, 0, 0⟩ < Vec3.distance ⟨0, 0, 0⟩ ⟨3, 0, 0⟩ ∧
    projectedSize ⟨0, 0, 0⟩ 1 ⟨3, 0, 0⟩ 1 < projectedSize ⟨0, 0, 0⟩ 1 ⟨1, 0, 0⟩ 1 ∧
    projectedSize ⟨0, 0, 0⟩ 1 ⟨1, 0, 0⟩ 1 < projectedSize ⟨0, 0, 0⟩ 1 ⟨1, 0, 0⟩ 2 := by
  have h1 : Vec3.distance ⟨0, 0, 0⟩ ⟨1, 0, 0⟩ = 1 := by
    unfold Vec3.distance
    norm_num
  have h3 : Vec3.distance ⟨0, 0, 0⟩ ⟨3, 0, 0⟩ = 3 := by
    unfold Vec3.distance
    rw [show ((3 : ℝ) - 0) ^ 2 + (0 - 0) ^ 2 + (0 - 0) ^ 2 = 3 ^ 2 by norm_num]
    exact Real.sqrt_sq (by norm_num)
  have h := projectedSize_strictMono ⟨0, 0, 0⟩ ⟨1, 0, 0⟩ ⟨3, 0, 0⟩ ⟨1, 0, 0⟩ 1 1 1 2 (by norm_num)
  refine ⟨by norm_num, by rw [h1]; norm_num, by rw [h1, h3]; norm_num, ?_, ?_⟩
  · exact h.1 (by norm_num) (by rw [h1]; norm_num) (by rw [h1, h3]; norm_num)
  · exact h.2 (by rw [h1]; norm_num) (by norm_num)

/-- On the signed-32-bit range the wrap is the identity. -/
theorem toInt32_eq_self (n : ℤ) (h0 : 0 ≤ n) (h1 : n < 2147483648) : toInt32 n = n := by
  unfold toInt32
  have hm : n % 4294967296 = n := Int.emod_eq_of_lt h0 (by omega)
  simp only [hm]
  omega

/-- For zoom differences `1 ≤ dz ≤ 30` the JavaScript shift `2 << (dz - 1)`
computes the exact power `2 ^ dz`. -/
theorem jsShl32_two_pow (dz : ℤ) (h1 : 1 ≤ dz) (h30 : dz ≤ 30) :
    jsShl32 2 (dz - 1) = 2 ^ dz.toNat := by
  unfold jsShl32
  have h2 : toInt32 2 = 2 := toInt32_eq_self 2 (by norm_num) (by norm_num)
  have hmod : (dz - 1) % 32 = dz - 1 := Int.emod_eq_of_lt (by omega) (by omega)
  rw [h2, hmod]
  have hdz : dz.toNat = (dz - 1).toNat + 1 := by omega
  have hpow : (2 : ℤ) * 2 ^ (dz - 1).toNat = 2 ^ dz.toNat := by
    rw [hdz, pow_succ]; ring
  rw [hpow]
  refine toInt32_eq_self _ (by positivity) ?_
  calc (2 : ℤ) ^ dz.toNat ≤ 2 ^ 30 := by
        apply pow_le_pow_right₀ (by norm_num)
        omega
    _ < 2147483648 := by norm_num

/-- C10: `getChildTileIndex (x, y, z, ox, oy) = (2x + ox, 2y + oy, z + 1)`;
the round trip `getTileOffset (2x+ox, 2y+oy, z+1, x, y, z)` returns exactly
`(ox, oy, 1/2)`; and for any zoom difference `1 ≤ dz ≤ 30` (the amended
bound: JavaScript's 32-bit `<<` wraps at `dz = 31`),
`getTileOffset` returns `(childX - 2^dz * parentX, childY - 2^dz * parentY, 2^(-dz))`. -/
theorem tileOffset_roundTrip (x y z ox oy cx cy px py pz dz : ℤ)
    (h1 : 1 ≤ dz) (h30 : dz ≤ 30) :
    getChildTileIndex x y z ox oy = (2 * x + ox, 2 * y + oy, z + 1) ∧
    getTileOffset (2 * x + ox) (2 * y + oy) (z + 1) x y z = (ox, oy, 1/2) ∧
    getTileOffset cx cy (pz + dz) px py pz =
      (cx - 2 ^ dz.toNat * px, cy - 2 ^ dz.toNat * py, 1 / (2 ^ dz.toNat : ℚ)) := by
  refine ⟨by unfold getChildTileIndex; ring_nf, ?_, ?_⟩
  · have hsh : jsShl32 2 (z + 1 - z - 1) = 2 := by
      have h0 : z + 1 - z - 1 = 0 := by ring
      rw [h0]
      unfold jsShl32
      norm_num [toInt32]
    unfold getTileOffset
    rw [hsh]
    norm_num
  · have hsh : jsShl32 2 (pz + dz - pz - 1) = 2 ^ dz.toNat := by
      rw [show pz + dz - pz - 1 = dz - 1 by ring]
      exact jsShl32_two_pow dz h1 h30
    unfold getTileOffset
    rw [hsh]
    norm_num

/-- Witness for C10 at `x = 3, y = 5, z = 7`, offsets `(1, 0)`, and an
ancestor lookup with `dz = 3`. -/
theorem tileOffset_roundTrip_witness :
    ((1 : ℤ) ≤ 3 ∧ (3 : ℤ) ≤ 30) ∧
    (getChildTileIndex 3 5 7 1 0 = (2 * 3 + 1, 2 * 5 + 0, 7 + 1) ∧
     getTileOffset (2 * 3 + 1) (2 * 5 + 0) (7 + 1) 3 5 7 = (1, 0, 1/2) ∧
     getTileOffset 25 42 (7 + 3) 3 5 7 =
       (25 - 2 ^ (3 : ℤ).toNat * 3, 42 - 2 ^ (3 : ℤ).toNat * 5, 1 / (2 ^ (3 : ℤ).toNat : ℚ))) :=
  ⟨⟨by norm_num, by norm_num⟩, tileOffset_roundTrip 3 5 7 1 0 25 42 3 5 7 3 (by norm_num) (by norm_num)⟩

/-- C10 counterexample: at zoom difference `dz = 31` the claim's formula
`childX - 2^dz * parentX` fails, because JavaScript's `2 << 30` wraps to
`-2^31`: `getTileOffset 0 0 31 1 0 0` yields first component `2^31`, not
`-2^31`. -/
theorem tileOffset_wrap_at_31 :
    (getTileOffset 0 0 31 1 0 0).1 = 2147483648 ∧
    ((0 : ℤ) - 2 ^ (31 : ℤ).toNat * 1 = -2147483648) ∧
    (getTileOffset 0 0 31 1 0 0).1 ≠ (0 : ℤ) - 2 ^ (31 : ℤ).toNat * 1 := by
  refine ⟨by decide, by decide, by decide⟩

/-- C4: for a nonnegative fade rate and a well-formed phase, one frame of
the fading state machine keeps `_transitionOpacity` in `[0, 1]`; a
fading-in segment's opacity is non-decreasing and it stays fading-in until
it reaches opacity 1 (steady); a fading-out segment's opacity is
non-increasing and it stays fading-out until it reaches 0, at which point
it becomes `gone` (removed from the fading collection); and no phase drives
toward 0 and 1 simultaneously (`isFadingIn` and `isFadingOut` exclude each
other). -/
theorem fadeStep_invariants (rate : ℚ) (s : FadePhase) (hr : 0 ≤ rate) (hs : s.WF) :
    (fadeStep rate s).WF ∧
    (0 ≤ (fadeStep rate s).opacity ∧ (fadeStep rate s).opacity ≤ 1) ∧
    (s.isFadingIn → s.opacity ≤ (fadeStep rate s).opacity) ∧
    (s.isFadingOut → (fadeStep rate s).opacity ≤ s.opacity) ∧
    (s.isFadingIn → (fadeStep rate s).isFadingIn ∨ fadeStep rate s = .steady) ∧
    (s.isFadingOut → (fadeStep rate s).isFadingOut ∨ fadeStep rate s = .gone) ∧
    (s.isFadingOut → s.opacity ≤ rate → fadeStep rate s = .gone) ∧
    ¬(s.isFadingIn ∧ s.isFadingOut) := by
  cases s with
  | fadingIn o =>
    obtain ⟨h0, h1⟩ := hs
    by_cases h : 1 ≤ o + rate
    · rw [show fadeStep rate (.fadingIn o) = .steady by simp [fadeStep, h]]
      simp [FadePhase.WF, FadePhase.opacity, FadePhase.isFadingIn, FadePhase.isFadingOut, h1]
    · rw [show fadeStep rate (.fadingIn o) = .fadingIn (o + rate) by simp [fadeStep, h]]
      push_neg at h
      simp only [FadePhase.WF, FadePhase.opacity, FadePhase.isFadingIn, FadePhase.isFadingOut]
      refine ⟨⟨by linarith, by linarith⟩, ⟨by linarith, by linarith⟩,
        fun _ => by linarith, fun hf => hf.elim, fun _ => Or.inl trivial,
        fun hf => hf.elim, fun hf => hf.elim, fun hf => hf.2.elim⟩
  | steady =>
    simp [fadeStep, FadePhase.WF, FadePhase.opacity, FadePhase.isFadingIn,
      FadePhase.isFadingOut]
  | fadingOut o =>
    obtain ⟨h0, h1⟩ := hs
    by_cases h : o - rate ≤ 0
    · rw [show fadeStep rate (.fadingOut o) = .gone by simp [fadeStep, h]]
      simp only [FadePhase.WF, FadePhase.opacity, FadePhase.isFadingIn, FadePhase.isFadingOut]
      refine ⟨trivial, ⟨le_refl 0, by norm_num⟩, fun hf => hf.elim,
        fun _ => h0, fun hf => hf.elim, fun _ => Or.inr trivial, fun _ _ => trivial,
        fun hf => hf.1.elim⟩
    · rw [show fadeStep rate (.fadingOut o) = .fadingOut (o - rate) by simp [fadeStep, h]]
      push_neg at h
      simp only [FadePhase.WF, FadePhase.opacity, FadePhase.isFadingIn, FadePhase.isFadingOut]
      refine ⟨⟨by linarith, by linarith⟩, ⟨by linarith, by linarith⟩,
        fun hf => hf.elim, fun _ => by linarith, fun hf => hf.elim,
        fun _ => Or.inl trivial, fun _ hle => absurd hle (by push_neg; linarith),
        fun hf => hf.1.elim⟩
  | gone =>
    simp [fadeStep, FadePhase.WF, FadePhase.opacity, FadePhase.isFadingIn,
      FadePhase.isFadingOut]

/-- Witness for C4: rate `1/10`, a fading-in segment at opacity `1/2`. -/
theorem fadeStep_invariants_witness :
    ((0 : ℚ) ≤ 1/10 ∧ FadePhase.WF (.fadingIn (1/2))) ∧
    ((fadeStep (1/10) (.fadingIn (1/2))).WF ∧
     (0 ≤ (fadeStep (1/10) (.fadingIn (1/2))).opacity ∧
      (fadeStep (1/10) (.fadingIn (1/2))).opacity ≤ 1) ∧
     (FadePhase.isFadingIn (.fadingIn (1/2)) →
       FadePhase.opacity (.fadingIn (1/2)) ≤ (fadeStep (1/10) (.fadingIn (1/2))).opacity) ∧
     (FadePhase.isFadingOut (.fadingIn (1/2)) →
       (fadeStep (1/10) (.fadingIn (1/2))).opacity ≤ FadePhase.opacity (.fadingIn (1/2))) ∧
     (FadePhase.isFadingIn (.fadingIn (1/2)) →
       (fadeStep (1/10) (.fadingIn (1/2))).isFadingIn ∨ fadeStep (1/10) (.fadingIn (1/2)) = .steady) ∧
     (FadePhase.isFadingOut (.fadingIn (1/2)) →
       (fadeStep (1/10) (.fadingIn (1/2))).isFadingOut ∨ fadeStep (1/10) (.fadingIn (1/2)) = .gone) ∧
     (FadePhase.isFadingOut (.fadingIn (1/2)) →
       FadePhase.opacity (.fadingIn (1/2)) ≤ 1/10 → fadeStep (1/10) (.fadingIn (1/2)) = .gone) ∧
     ¬(FadePhase.isFadingIn (.fadingIn (1/2)) ∧ FadePhase.isFadingOut (.fadingIn (1/2)))) :=
  ⟨⟨by norm_num, by norm_num [FadePhase.WF]⟩,
    fadeStep_invariants (1/10) (.fadingIn (1/2)) (by norm_num) (by norm_num [FadePhase.WF])⟩

/-- C5 (amended): the equal-zoom pass leaves the rendered set untouched
unless camera slope strictly exceeds `minEqualZoomCameraSlope` (default
`0.8`) and the altitude lies strictly between `minEqualZoomAltitude`
(default `10000`) and `maxEqualZoomAltitude` (default `15000000`); inside
the band a node is kept exactly when its tile zoom equals `maxCurrZoom` or
its horizon value (centre normal dotted with the camera backward vector) is
strictly below `HORIZON_TANGENT = 0.81`, and every other node — a tie in
the horizon test included — is handed to `renderTree` for re-subdivision
down to `maxCurrZoom`. -/
theorem collectRenderedNodesMaxZoom_spec (cfg : EqCfg) (cam : EqCam) (maxCurrZoom : ℤ)
    (nodes : List RNode) (n : RNode) :
    (¬inEqualZoomBand cfg cam →
      collectRenderedNodesMaxZoom cfg cam maxCurrZoom nodes = (nodes, [])) ∧
    (inEqualZoomBand cfg cam →
      ((n ∈ (collectRenderedNodesMaxZoom cfg cam maxCurrZoom nodes).1 ↔
         n ∈ nodes ∧ (n.tileZoom = maxCurrZoom ∨
           n.centerNormal.dot cam.backward < HORIZON_TANGENT)) ∧
       (n ∈ (collectRenderedNodesMaxZoom cfg cam maxCurrZoom nodes).2 ↔
         n ∈ nodes ∧ ¬(n.tileZoom = maxCurrZoom ∨
           n.centerNormal.dot cam.backward < HORIZON_TANGENT)))) ∧
    defaultEqCfg.minEqualZoomCameraSlope = 8/10 ∧
    defaultEqCfg.maxEqualZoomAltitude = 15000000 ∧
    defaultEqCfg.minEqualZoomAltitude = 10000 := by
  refine ⟨?_, ?_, rfl, rfl, rfl⟩
  · intro h
    unfold collectRenderedNodesMaxZoom
    rw [if_neg h]
  · intro h
    unfold collectRenderedNodesMaxZoom
    rw [if_pos h, List.partition_eq_filter_filter]
    constructor
    · simp [List.mem_filter]
    · simp [List.mem_filter]

/-- Witness for C5: an in-band camera (defaults, slope `0.9`, altitude
`20000`) with one node at the maximal zoom: the membership
characterization of the kept and re-subdivided lists holds concretely. -/
theorem collectRenderedNodesMaxZoom_spec_witness :
    inEqualZoomBand defaultEqCfg ⟨9/10, 20000, ⟨1, 0, 0⟩⟩ ∧
    ((⟨5, ⟨1, 0, 0⟩⟩ ∈ (collectRenderedNodesMaxZoom defaultEqCfg ⟨9/10, 20000, ⟨1, 0, 0⟩⟩ 5 [⟨5, ⟨1, 0, 0⟩⟩]).1 ↔
       (⟨5, ⟨1, 0, 0⟩⟩ : RNode) ∈ [(⟨5, ⟨1, 0, 0⟩⟩ : RNode)] ∧
         ((⟨5, ⟨1, 0, 0⟩⟩ : RNode).tileZoom = 5 ∨
           Vec3q.dot (⟨5, ⟨1, 0, 0⟩⟩ : RNode).centerNormal ⟨1, 0, 0⟩ < HORIZON_TANGENT)) ∧
     (⟨5, ⟨1, 0, 0⟩⟩ ∈ (collectRenderedNodesMaxZoom defaultEqCfg ⟨9/10, 20000, ⟨1, 0, 0⟩⟩ 5 [⟨5, ⟨1, 0, 0⟩⟩]).2 ↔
       (⟨5, ⟨1, 0, 0⟩⟩ : RNode) ∈ [(⟨5, ⟨1, 0, 0⟩⟩ : RNode)] ∧
         ¬((⟨5, ⟨1, 0, 0⟩⟩ : RNode).tileZoom = 5 ∨
           Vec3q.dot (⟨5, ⟨1, 0, 0⟩⟩ : RNode).centerNormal ⟨1, 0, 0⟩ < HORIZON_TANGENT))) := by
  have hband : inEqualZoomBand defaultEqCfg ⟨9/10, 20000, ⟨1, 0, 0⟩⟩ := by
    unfold inEqualZoomBand defaultEqCfg
    norm_num
  exact ⟨hband,
    (collectRenderedNodesMaxZoom_spec defaultEqCfg ⟨9/10, 20000, ⟨1, 0, 0⟩⟩ 5
      [⟨5, ⟨1, 0, 0⟩⟩] ⟨5, ⟨1, 0, 0⟩⟩).2.1 hband⟩

/-- C5 counterexample to the claimed tie-break: inside the band (defaults,
slope `0.9`, altitude `20000`), a coarser node (zoom `3 ≠ maxCurrZoom = 5`)
whose horizon value ties the threshold exactly
(`centerNormal ⬝ backward = 0.81 = HORIZON_TANGENT`) is NOT kept: it is
handed to re-subdivision, contradicting "a tie in the horizon test keeps
the coarser node". -/
theorem collectRenderedNodesMaxZoom_tie_not_kept :
    Vec3q.dot ⟨81/100, 0, 0⟩ ⟨1, 0, 0⟩ = HORIZON_TANGENT ∧
    (collectRenderedNodesMaxZoom defaultEqCfg ⟨9/10, 20000, ⟨1, 0, 0⟩⟩ 5
      [⟨3, ⟨81/100, 0, 0⟩⟩]).1 = [] ∧
    (collectRenderedNodesMaxZoom defaultEqCfg ⟨9/10, 20000, ⟨1, 0, 0⟩⟩ 5
      [⟨3, ⟨81/100, 0, 0⟩⟩]).2 = [⟨3, ⟨81/100, 0, 0⟩⟩] := by
  have hdot : Vec3q.dot ⟨81/100, 0, 0⟩ ⟨1, 0, 0⟩ = HORIZON_TANGENT := by
    unfold Vec3q.dot HORIZON_TANGENT
    norm_num
  have hband : inEqualZoomBand defaultEqCfg ⟨9/10, 20000, ⟨1, 0, 0⟩⟩ := by
    unfold inEqualZoomBand defaultEqCfg
    norm_num
  refine ⟨hdot, ?_, ?_⟩ <;>
    · unfold collectRenderedNodesMaxZoom
      rw [if_pos hband, List.partition_eq_filter_filter]
      simp [List.filter, hdot]

/-- C9: when the pixel's view ray hits nothing (no rendered terrain under
the pixel and the ray misses the ellipsoid), `getCartesianFromPixelEllipsoid`,
`getCartesianFromPixelTerrain` and `getLonLatFromPixelTerrain` all return
`undefined` (`none`) — they signal absence instead of throwing, being total
functions into `Option`; when an intersection distance exists (a nonzero
renderer distance, or a nonzero ellipsoid hit with no renderer hit), the
cartesian result is exactly the camera eye plus the unprojected ray
direction scaled to that distance. -/
theorem picking_absence_and_value (ctx : PickCtx) (toLonLat : Vec3q → LonLat) :
    (ctx.rendererDist = none → ctx.ellipsoidHitDist = none →
      getCartesianFromPixelEllipsoid ctx = none ∧
      getCartesianFromPixelTerrain ctx = none ∧
      getLonLatFromPixelTerrain ctx toLonLat = none) ∧
    (∀ t, ctx.ellipsoidHitDist = some t →
      getCartesianFromPixelEllipsoid ctx = some (ctx.eye.addA (ctx.dir.scaleTo t))) ∧
    (∀ d, ctx.rendererDist = some d → d ≠ 0 →
      getCartesianFromPixelTerrain ctx = some ((ctx.dir.scaleTo d).addA ctx.eye)) ∧
    (∀ t, ctx.rendererDist = none → ctx.ellipsoidHitDist = some t → t ≠ 0 →
      getCartesianFromPixelTerrain ctx = some ((ctx.dir.scaleTo t).addA ctx.eye)) := by
  refine ⟨?_, ?_, ?_, ?_⟩
  · intro hr he
    have hd : getDistanceFromPixel ctx = 0 := by
      unfold getDistanceFromPixel jsOr jsTruthy getDistanceFromPixelEllipsoid
        getCartesianFromPixelEllipsoid hitRay
      rw [hr, he]
      rfl
    refine ⟨?_, ?_, ?_⟩
    · unfold getCartesianFromPixelEllipsoid hitRay
      rw [he]
      rfl
    · unfold getCartesianFromPixelTerrain
      simp [hd]
    · unfold getLonLatFromPixelTerrain getCartesianFromPixelTerrain
      simp [hd]
  · intro t ht
    unfold getCartesianFromPixelEllipsoid hitRay
    rw [ht]
    rfl
  · intro d hd hd0
    have hdist : getDistanceFromPixel ctx = d := by
      unfold getDistanceFromPixel jsOr jsTruthy
      rw [hd]
      simp [hd0]
    unfold getCartesianFromPixelTerrain
    simp [hdist, hd0]
  · intro t hr ht ht0
    have hdist : getDistanceFromPixel ctx = t := by
      unfold getDistanceFromPixel jsOr jsTruthy getDistanceFromPixelEllipsoid
        getCartesianFromPixelEllipsoid hitRay
      rw [hr, ht]
      simp [ht0]
    unfold getCartesianFromPixelTerrain
    simp [hdist, ht0]

/-- Witness for C9: a missing ray (`rendererDist = none`,
`ellipsoidHitDist = none`) yields `none` from all three functions, and a
renderer hit at distance 7 along the `x`-axis ray from the origin yields
the point `(7, 0, 0)`. -/
theorem picking_absence_and_value_witness :
    (getCartesianFromPixelEllipsoid ⟨⟨0, 0, 0⟩, ⟨1, 0, 0⟩, none, none⟩ = none ∧
     getCartesianFromPixelTerrain ⟨⟨0, 0, 0⟩, ⟨1, 0, 0⟩, none, none⟩ = none ∧
     getLonLatFromPixelTerrain ⟨⟨0, 0, 0⟩, ⟨1, 0, 0⟩, none, none⟩ (fun _ => ⟨0, 0⟩) = none) ∧
    getCartesianFromPixelTerrain ⟨⟨0, 0, 0⟩, ⟨1, 0, 0⟩, some 7, some 3⟩ =
      some ((Vec3q.scaleTo ⟨1, 0, 0⟩ 7).addA ⟨0, 0, 0⟩) :=
  ⟨(picking_absence_and_value ⟨⟨0, 0, 0⟩, ⟨1, 0, 0⟩, none, none⟩ (fun _ => ⟨0, 0⟩)).1 rfl rfl,
   (picking_absence_and_value ⟨⟨0, 0, 0⟩, ⟨1, 0, 0⟩, some 7, some 3⟩ (fun _ => ⟨0, 0⟩)).2.2.1
     7 rfl (by norm_num)⟩

/-! Helper lemmas for the elevation-extraction claims. -/

theorem fillRange_eq_of_notHit (n : ℕ) (idx : ℕ → ℕ) (val : ℕ → ℚ) (a : ℕ → ℚ) (m : ℕ)
    (h : ∀ k, k < n → idx k ≠ m) : fillRange n idx val a m = a m := by
  induction n with
  | zero => rfl
  | succ n ih =>
    unfold fillRange at *
    rw [List.range_succ, List.foldl_append]
    simp only [List.foldl_cons, List.foldl_nil]
    rw [Function.update_noteq (Ne.symm (h n (Nat.lt_succ_self n)))]
    exact ih (fun k hk => h k (Nat.lt_succ_of_lt hk))

theorem fillRange_eq_val (n : ℕ) (idx : ℕ → ℕ) (val : ℕ → ℚ) (a : ℕ → ℚ) (k : ℕ)
    (hk : k < n) (huniq : ∀ k2, k2 < n → idx k2 = idx k → k2 = k) :
    fillRange n idx val a (idx k) = val k := by
  induction n with
  | zero => omega
  | succ n ih =>
    unfold fillRange at *
    rw [List.range_succ, List.foldl_append]
    simp only [List.foldl_cons, List.foldl_nil]
    by_cases hkn : k = n
    · subst hkn
      rw [Function.update_same]
    · have hk' : k < n := by omega
      have hne : idx n ≠ idx k := fun he => hkn ((huniq n (Nat.lt_succ_self n) he).symm)
      rw [Function.update_noteq (Ne.symm hne)]
      exact ih hk' (fun k2 h2 he => huniq k2 (Nat.lt_succ_of_lt h2) he)

/-- If the binary search returns an index, the key is in the array
(indices stay within `[0, arr.length)`). -/
theorem bsfGo_mem (arr : List ℚ) (x : ℚ) (fuel : ℕ) (start en : ℤ)
    (hst : 0 ≤ start) (hen : en < (arr.length : ℤ)) :
    bsfGo arr x fuel start en ≠ -1 → x ∈ arr := by
  induction fuel generalizing start en with
  | zero => simp [bsfGo]
  | succ fuel ih =>
    intro hres
    unfold bsfGo at hres
    by_cases hse : start ≤ en
    · rw [if_pos hse] at hres
      have hm0 : 0 ≤ (start + en) / 2 := Int.ediv_nonneg (by omega) (by norm_num)
      have hmen : (start + en) / 2 ≤ en := by omega
      have hmlen : ((start + en) / 2).toNat < arr.length := by omega
      by_cases hvx : arr.getD ((start + en) / 2).toNat 0 = x
      · rw [if_pos hvx] at hres
        rw [List.getD_eq_get arr 0 hmlen] at hvx
        exact hvx ▸ List.get_mem arr ((start + en) / 2).toNat hmlen
      · rw [if_neg hvx] at hres
        by_cases hlt : arr.getD ((start + en) / 2).toNat 0 < x
        · rw [if_pos hlt] at hres
          exact ih ((start + en) / 2 + 1) en (by omega) hen hres
        · rw [if_neg hlt] at hres
          exact ih start ((start + en) / 2 - 1) hst (by omega) hres
    · rw [if_neg hse] at hres
      exact absurd rfl hres

/-- If the key occurs in the (sorted) search window and the fuel dominates
the window size, the binary search does not return `-1`. -/
theorem bsfGo_found (arr : List ℚ) (x : ℚ) (fuel : ℕ) (start en : ℤ)
    (hsorted : arr.Sorted (· ≤ ·)) (hst : 0 ≤ start) (hen : en < (arr.length : ℤ))
    (hfuel : (en + 1 - start).toNat < fuel)
    (hex : ∃ k : ℕ, start ≤ (k : ℤ) ∧ (k : ℤ) ≤ en ∧ arr.getD k 0 = x) :
    bsfGo arr x fuel start en ≠ -1 := by
  induction fuel generalizing start en with
  | zero => omega
  | succ fuel ih =>
    obtain ⟨k, hks, hke, hkx⟩ := hex
    have hse : start ≤ en := le_trans hks hke
    have hklen : k < arr.length := by omega
    unfold bsfGo
    rw [if_pos hse]
    have hm0 : 0 ≤ (start + en) / 2 := Int.ediv_nonneg (by omega) (by norm_num)
    have hms : start ≤ (start + en) / 2 := by omega
    have hme : (start + en) / 2 ≤ en := by omega
    have hmlen : ((start + en) / 2).toNat < arr.length := by omega
    by_cases hvx : arr.getD ((start + en) / 2).toNat 0 = x
    · rw [if_pos hvx]
      omega
    · rw [if_neg hvx]
      by_cases hlt : arr.getD ((start + en) / 2).toNat 0 < x
      · rw [if_pos hlt]
        refine ih ((start + en) / 2 + 1) en (by omega) hen (by omega) ⟨k, ?_, hke, hkx⟩
        by_contra hkm
        push_neg at hkm
        have hkm2 : k ≤ ((start + en) / 2).toNat := by omega
        have : arr.getD k 0 ≤ arr.getD ((start + en) / 2).toNat 0 := by
          rw [List.getD_eq_get arr 0 hklen, List.getD_eq_get arr 0 hmlen]
          exact hsorted.rel_get_of_le (Fin.mk_le_mk.mpr hkm2)
        rw [hkx] at this
        exact absurd (lt_of_le_of_lt this hlt) (lt_irrefl x)
      · rw [if_neg hlt]
        have hgt : x < arr.getD ((start + en) / 2).toNat 0 :=
          lt_of_le_of_ne (le_of_not_lt hlt) (fun he => hvx he.symm)
        refine ih start ((start + en) / 2 - 1) hst (by omega) (by omega) ⟨k, hks, ?_, hkx⟩
        by_contra hkm
        push_neg at hkm
        have hkm2 : ((start + en) / 2).toNat ≤ k := by omega
        have : arr.getD ((start + en) / 2).toNat 0 ≤ arr.getD k 0 := by
          rw [List.getD_eq_get arr 0 hmlen, List.getD_eq_get arr 0 hklen]
          exact hsorted.rel_get_of_le (Fin.mk_le_mk.mpr hkm2)
        rw [hkx] at this
        exact absurd (lt_of_lt_of_le hgt this) (lt_irrefl x)

/-- For a sorted sentinel list, `binarySearchFast` finds exactly the
members. -/
theorem binarySearchFast_mem (arr : List ℚ) (x : ℚ) (hsorted : arr.Sorted (· ≤ ·)) :
    binarySearchFast arr x ≠ -1 ↔ x ∈ arr := by
  constructor
  · intro h
    exact bsfGo_mem arr x (arr.length + 1) 0 ((arr.length : ℤ) - 1) (le_refl 0) (by omega) h
  · intro hmem
    obtain ⟨⟨k, hk⟩, hkx⟩ := List.mem_iff_get.mp hmem
    refine bsfGo_found arr x (arr.length + 1) 0 ((arr.length : ℤ) - 1) hsorted (le_refl 0)
      (by omega) (by omega) ⟨k, by omega, by omega, ?_⟩
    rw [List.getD_eq_get arr 0 hk]
    exact hkx

/-- Euclidean uniqueness for row-major `(S+1)`-pitch grid indices. -/
theorem gridIndex_inj (S a b c d : ℕ) (hb : b < S + 1) (hd : d < S + 1)
    (h : a * (S + 1) + b = c * (S + 1) + d) : a = c ∧ b = d := by
  have ha : (a * (S + 1) + b) / (S + 1) = a := by
    rw [Nat.mul_comm a (S + 1), Nat.mul_add_div (Nat.succ_pos S), Nat.div_eq_of_lt hb,
      Nat.add_zero]
  have hc : (c * (S + 1) + d) / (S + 1) = c := by
    rw [Nat.mul_comm c (S + 1), Nat.mul_add_div (Nat.succ_pos S), Nat.div_eq_of_lt hd,
      Nat.add_zero]
  have hac : a = c := by rw [← ha, ← hc, h]
  subst hac
  exact ⟨rfl, Nat.add_left_cancel h⟩

/-- Value stored by `extractElevationSimple` at output cell `(i, j)`,
`i, j ≤ imageSize`: the resolved height of the source pixel
`(min i (imageSize-1), min j (imageSize-1))` — the interior loop for
`i, j < imageSize`, the duplicated right column/bottom row/corner
otherwise. -/
theorem extractElevationSimple_at (rgba : ℕ → ℚ) (ndv : List ℚ)
    (parent : Option (ℤ → ℚ)) (pgs : ℕ) (ox oy zd : ℚ) (skip : Bool) (hf : ℚ)
    (S : ℕ) (mh rz : ℚ) (i j : ℕ) (hS : 1 ≤ S) (hi : i ≤ S) (hj : j ≤ S) :
    extractElevationSimple rgba ndv parent pgs ox oy zd skip hf S mh rz (i * (S + 1) + j) =
      resolveHeight ndv parent pgs ox oy zd skip
        (pixelHeight rgba mh rz hf ((min i (S - 1) * S + min j (S - 1)) * 4))
        (min i (S - 1)) (min j (S - 1)) := by
  simp only [extractElevationSimple]
  have hC : (S + 1) * (S + 1) - 1 = S * (S + 1) + S := by
    have h : (S + 1) * (S + 1) = S * (S + 1) + S + 1 := by ring
    omega
  rcases Nat.lt_or_ge i S with hiS | hiS
  · rcases Nat.lt_or_ge j S with hjS | hjS
    · -- interior cell: written by the main loop at k0 = i*S + j
      have hmi : min i (S - 1) = i := Nat.min_eq_left (by omega)
      have hmj : min j (S - 1) = j := Nat.min_eq_left (by omega)
      have hmlt : i * (S + 1) + j < S * (S + 1) := by
        calc i * (S + 1) + j < i * (S + 1) + (S + 1) := by omega
          _ = (i + 1) * (S + 1) := by ring
          _ ≤ S * (S + 1) := Nat.mul_le_mul_right (S + 1) (by omega)
      rw [Function.update_noteq (by omega)]
      rw [fillRange_eq_of_notHit _ _ _ _ _ (fun k hk => by omega)]
      rw [fillRange_eq_of_notHit _ _ _ _ _ (fun k hk => by
        intro he
        have := gridIndex_inj S k S i j (by omega) (by omega) he
        omega)]
      have hdiv : (i * S + j) / S = i := by
        rw [Nat.mul_comm i S, Nat.mul_add_div (by omega), Nat.div_eq_of_lt hjS, Nat.add_zero]
      have hmod : (i * S + j) % S = j := by
        rw [Nat.mul_comm i S, Nat.mul_add_mod, Nat.mod_eq_of_lt hjS]
      have hk0 : i * S + j < S * S := by
        calc i * S + j < i * S + S := by omega
          _ = (i + 1) * S := by ring
          _ ≤ S * S := Nat.mul_le_mul_right S (by omega)
      have hidx : i * (S + 1) + j =
          ((i * S + j) / S) * (S + 1) + (i * S + j) % S := by
        rw [hdiv, hmod]
      rw [hidx, fillRange_eq_val _ _ _ _ (i * S + j) hk0 (fun k2 hk2 he => by
        have h1 := gridIndex_inj S (k2 / S) (k2 % S) ((i * S + j) / S) ((i * S + j) % S)
          (by have := Nat.mod_lt k2 (show 0 < S by omega); omega)
          (by rw [hmod]; omega) he
        have h2 := Nat.div_add_mod k2 S
        have h3 := Nat.div_add_mod (i * S + j) S
        rw [h1.1, h1.2] at h2
        omega)]
      rw [hdiv, hmod, hmi, hmj]
    · -- right column: j = S, written by the second loop at row i
      have hj' : j = S := by omega
      rw [hj']
      have hmi : min i (S - 1) = i := Nat.min_eq_left (by omega)
      have hmj : min S (S - 1) = S - 1 := Nat.min_eq_right (by omega)
      have hmlt : i * (S + 1) + S < S * (S + 1) := by
        calc i * (S + 1) + S < i * (S + 1) + (S + 1) := by omega
          _ = (i + 1) * (S + 1) := by ring
          _ ≤ S * (S + 1) := Nat.mul_le_mul_right (S + 1) (by omega)
      rw [Function.update_noteq (by omega)]
      rw [fillRange_eq_of_notHit _ _ _ _ _ (fun k hk => by omega)]
      rw [fillRange_eq_val _ _ _ _ i hiS (fun k2 hk2 he => by
        exact (gridIndex_inj S k2 S i S (by omega) (by omega) he).1)]
      rw [hmi, hmj]
  · rcases Nat.lt_or_ge j S with hjS | hjS
    · -- bottom row: i = S, written by the third loop at column j
      have hi' : i = S := by omega
      rw [hi']
      have hmi : min S (S - 1) = S - 1 := Nat.min_eq_right (by omega)
      have hmj : min j (S - 1) = j := Nat.min_eq_left (by omega)
      rw [Function.update_noteq (by omega)]
      rw [fillRange_eq_val _ _ _ _ j hjS (fun k2 hk2 he => by omega)]
      rw [hmi, hmj]
    · -- bottom-right corner
      have hi' : i = S := by omega
      have hj' : j = S := by omega
      rw [hi', hj']
      have hmi : min S (S - 1) = S - 1 := Nat.min_eq_right (by omega)
      have hcorner : S * (S + 1) + S = (S + 1) * (S + 1) - 1 := by omega
      rw [hcorner, Function.update_same]
      have hpix : S * S - 1 = (S - 1) * S + (S - 1) := by
        have h : (S - 1 + 1) * S = (S - 1) * S + S := by ring
        have h2 : S - 1 + 1 = S := by omega
        rw [h2] at h
        omega
      rw [hpix, hmi]

/-- C6 (amended): a decoded height counts as no-data exactly when it
exceeds 50000 or is a member of the sorted `noDataValues` list (found by
binary search); whenever the decoded sample at output cell `(i, j)` is
no-data or zero and an ancestor's elevation data is available,
`extractElevationSimple` stores exactly `getParentHeight` of the ancestor
at the corresponding sub-position, which is the ancestor's sample at the
parent-offset/zoom-difference index — an exact lookup with no
interpolation — except that with `skipPositiveHeights` set a positive
ancestor sample is stored as `0`. -/
theorem elevation_nodata_parent_fallback (rgba : ℕ → ℚ) (ndv : List ℚ)
    (hp : ℤ → ℚ) (pgs : ℕ) (ox oy zd : ℚ) (skip : Bool) (hf : ℚ) (S : ℕ)
    (mh rz : ℚ) (i j : ℕ) (v : ℚ)
    (hsorted : ndv.Sorted (· ≤ ·)) (hS : 1 ≤ S) (hi : i ≤ S) (hj : j ≤ S)
    (hcond : checkNoDataValue ndv
        (pixelHeight rgba mh rz hf ((min i (S - 1) * S + min j (S - 1)) * 4)) = true ∨
      pixelHeight rgba mh rz hf ((min i (S - 1) * S + min j (S - 1)) * 4) = 0) :
    (checkNoDataValue ndv v = true ↔ (v > 50000 ∨ v ∈ ndv)) ∧
    extractElevationSimple rgba ndv (some hp) pgs ox oy zd skip hf S mh rz
        (i * (S + 1) + j) =
      getParentHeight zd ox oy hp pgs (min i (S - 1)) (min j (S - 1)) skip ∧
    getParentHeight zd ox oy hp pgs (min i (S - 1)) (min j (S - 1)) skip =
      (let sample := hp
        (⌊oy * zd * (pgs : ℚ) + ((min i (S - 1) : ℕ) : ℚ) * zd⌋ * (pgs : ℤ) +
          ⌊ox * zd * (pgs : ℚ) + ((min j (S - 1) : ℕ) : ℚ) * zd⌋);
        if skip = true ∧ sample > 0 then 0 else sample) := by
  refine ⟨?_, ?_, ?_⟩
  · have hbs := binarySearchFast_mem ndv v hsorted
    by_cases hv : v > 50000
    · simp [checkNoDataValue, hv]
    · simp only [checkNoDataValue, if_neg hv, decide_eq_true_eq]
      rw [hbs]
      constructor
      · exact Or.inr
      · rintro (h | h)
        · exact absurd h hv
        · exact h
  · rw [extractElevationSimple_at rgba ndv (some hp) pgs ox oy zd skip hf S mh rz i j
      hS hi hj]
    simp only [resolveHeight]
    rw [if_pos hcond]
  · simp only [getParentHeight]
    cases skip
    · simp
    · by_cases hs : hp
        (⌊oy * zd * (pgs : ℚ) + ((min i (S - 1) : ℕ) : ℚ) * zd⌋ * (pgs : ℤ) +
          ⌊ox * zd * (pgs : ℚ) + ((min j (S - 1) : ℕ) : ℚ) * zd⌋) > 0
      · simp [hs]
      · simp [hs]

/-- Witness for C6 at a 1×1 tile whose only pixel decodes to height 0 with
an all-5 ancestor grid one zoom up and `skipPositiveHeights = false`: the
stored value is the ancestor's sample, 5. -/
theorem elevation_nodata_parent_fallback_witness :
    (checkNoDataValue [] 7 = true ↔ ((7 : ℚ) > 50000 ∨ (7 : ℚ) ∈ ([] : List ℚ))) ∧
    extractElevationSimple (fun _ => 0) [] (some (fun _ => 5)) 1 0 0 (1/2) false 1 1 0 1
        (0 * (1 + 1) + 0) =
      getParentHeight (1/2) 0 0 (fun _ => 5) 1 (min 0 (1 - 1)) (min 0 (1 - 1)) false ∧
    getParentHeight (1/2) 0 0 (fun _ => 5) 1 (min 0 (1 - 1)) (min 0 (1 - 1)) false =
      (let sample := (fun (_ : ℤ) => (5 : ℚ))
        (⌊(0 : ℚ) * (1/2) * ((1 : ℕ) : ℚ) + ((min 0 (1 - 1) : ℕ) : ℚ) * (1/2)⌋ * ((1 : ℕ) : ℤ) +
          ⌊(0 : ℚ) * (1/2) * ((1 : ℕ) : ℚ) + ((min 0 (1 - 1) : ℕ) : ℚ) * (1/2)⌋);
        if false = true ∧ sample > 0 then 0 else sample) :=
  elevation_nodata_parent_fallback (fun _ => 0) [] (fun _ => 5) 1 0 0 (1/2) false 1 1 0 1
    0 0 7 List.sorted_nil (by norm_num) (by norm_num) (by norm_num)
    (Or.inr (by norm_num [pixelHeight, rgb2Height]))

/-- C6 counterexample to "equals the ancestor's sample exactly": same 1×1
tile, but `skipPositiveHeights = true` (the ancestor is at zoom ≤ 8): the
positive ancestor sample 5 is stored as 0, not 5. -/
theorem elevation_skipPositive_counterexample :
    extractElevationSimple (fun _ => 0) [] (some (fun _ => 5)) 1 0 0 (1/2) true 1 1 0 1 0 = 0 ∧
    getParentHeight (1/2) 0 0 (fun _ => 5) 1 0 0 false = 5 ∧
    extractElevationSimple (fun _ => 0) [] (some (fun _ => 5)) 1 0 0 (1/2) true 1 1 0 1 0 ≠
      getParentHeight (1/2) 0 0 (fun _ => 5) 1 0 0 false := by
  have h := extractElevationSimple_at (fun _ => 0) [] (some (fun _ => 5)) 1 0 0 (1/2)
    true 1 1 0 1 0 0 (by norm_num) (by norm_num) (by norm_num)
  norm_num at h
  have hx : extractElevationSimple (fun _ => 0) [] (some (fun _ => 5)) 1 0 0 (1/2) true 1 1 0 1 0 = 0 := by
    rw [h]
    norm_num [resolveHeight, checkNoDataValue, binarySearchFast, bsfGo, pixelHeight,
      rgb2Height, getParentHeight]
  have hg : getParentHeight (1/2) 0 0 (fun _ => 5) 1 0 0 false = 5 := by
    norm_num [getParentHeight]
  refine ⟨hx, hg, ?_⟩
  rw [hx, hg]
  norm_num

/-- C8: the full quad-tree clear in `_globalPreDraw` triggers exactly when
the created-node count exceeds `MAX_NODES = 200` and the accumulated camera
travel distance (after adding this frame's travel) exceeds the configured
minimum distance; `memClear` then resets both accumulators to zero. -/
theorem globalPreDraw_memClear_spec (s : MemState) (travel : ℚ) :
    ((globalPreDraw s travel).2 = true ↔
      (s.createdNodesCount > MAX_NODES ∧
       s.distBeforeMemClear + travel > s.minDistanceBeforeMemClear)) ∧
    ((globalPreDraw s travel).2 = true →
      (globalPreDraw s travel).1.createdNodesCount = 0 ∧
      (globalPreDraw s travel).1.distBeforeMemClear = 0) ∧
    ((globalPreDraw s travel).2 = false →
      (globalPreDraw s travel).1.createdNodesCount = s.createdNodesCount ∧
      (globalPreDraw s travel).1.distBeforeMemClear = s.distBeforeMemClear + travel) ∧
    (memClear s).createdNodesCount = 0 ∧
    (memClear s).distBeforeMemClear = 0 ∧
    MAX_NODES = 200 := by
  unfold globalPreDraw memClear
  by_cases h : (s.createdNodesCount > MAX_NODES ∧
      s.distBeforeMemClear + travel > s.minDistanceBeforeMemClear)
  · rw [if_pos (by exact h)]
    refine ⟨by simpa using h, fun _ => ⟨rfl, rfl⟩, by simp, rfl, rfl, rfl⟩
  · rw [if_neg (by exact h)]
    refine ⟨by simpa using h, by simp, fun _ => ⟨rfl, rfl⟩, rfl, rfl, rfl⟩

/-- Witness for C8 at a state past both thresholds (`created = 201 > 200`,
accumulated travel `5 + 2 > 1`): the clear fires and both accumulators are
reset. -/
theorem globalPreDraw_memClear_spec_witness :
    (globalPreDraw ⟨201, 5, 1⟩ 2).2 = true ∧
    (globalPreDraw ⟨201, 5, 1⟩ 2).1.createdNodesCount = 0 ∧
    (globalPreDraw ⟨201, 5, 1⟩ 2).1.distBeforeMemClear = 0 := by
  have h := globalPreDraw_memClear_spec ⟨201, 5, 1⟩ 2
  have ht : (globalPreDraw ⟨201, 5, 1⟩ 2).2 = true :=
    h.1.mpr ⟨by norm_num [MAX_NODES], by norm_num⟩
  exact ⟨ht, (h.2.1 ht).1, (h.2.1 ht).2⟩

end OG
